import Mathlib

/-!
Verification of the categorization-and-aggregation engine of the
family-budget dashboard.

The development shallowly embeds the engine's functions:

* `categorizeExpense` from `src/utils/categorizeExpense.ts` (the current
  variant, with the positive-amount income short-circuit);
* `getCumulativePerMonthAndDataMonths`, `getCumulativeTotalAndDataMonths`
  and `getLinearTargetProgress` from the year-window dashboard component;
* `getCumulativePoints` and `buildLinearTargetLine` from the
  per-transaction dashboard component.

JavaScript numbers are modelled as exact rationals (`Rat`); JS `Date`
values are modelled by their observable fields (epoch time, year, month,
day of month); JS string operations used by the code (`toLowerCase`,
`includes`, `trim`) are modelled character-listwise.
-/

namespace FamilyBudget

/-- Observable fields of a JS `Date`: `getTime` (epoch milliseconds),
`getFullYear`, `getMonth` (0-11), `getDate` (day of month). -/
structure Date where
  time : Int
  year : Int
  month : Nat
  day : Nat
deriving DecidableEq

instance : Inhabited Date := ⟨⟨0, 0, 0, 1⟩⟩

/-- A parsed transaction record (`Expense` in `src/types.ts`). -/
structure Expense where
  date : Date
  description : String
  amount : Rat
  category : String
deriving DecidableEq

instance : Inhabited Expense := ⟨⟨default, "", 0, ""⟩⟩

/-- JS `String.prototype.toLowerCase`, restricted to ASCII case mapping
(all strings handled by the engine's rules are compared ASCII-wise). -/
def lowerStr (s : String) : String := ⟨s.data.map Char.toLower⟩

/-- Char-list test: the first list occurs at the start of the second. -/
def beginsWith : List Char → List Char → Bool
  | [], _ => true
  | _ :: _, [] => false
  | p :: ps, c :: cs => p == c && beginsWith ps cs

/-- Char-list test: the first list occurs contiguously somewhere in the
second. -/
def occursIn (p : List Char) : List Char → Bool
  | [] => beginsWith p []
  | c :: cs => beginsWith p (c :: cs) || occursIn p cs

/-- JS `s.includes(pat)`: substring containment. -/
def strIncludes (s pat : String) : Bool := occursIn pat.data s.data

/-- JS `String.prototype.trim`: strip leading and trailing whitespace. -/
def trimStr (s : String) : String :=
  ⟨((s.data.dropWhile Char.isWhitespace).reverse.dropWhile Char.isWhitespace).reverse⟩

/-- Pattern table, `Patterns = Record<string, string[]>` in `src/types.ts`.
The code always reads it as `patterns[cat] || []`, a total lookup with
default `[]`, so it is modelled as a total function. -/
abbrev Patterns := String → List String

/-- One pattern test of the classifier loop:
`if (pat && lc.includes(pat.toLowerCase()))` — the pattern must be nonempty
and its lowercased form must occur in the lowercased description.
Note there is no whitespace trimming here. -/
def patMatches (lc pat : String) : Bool :=
  pat != "" && strIncludes lc (lowerStr pat)

/-- The category loop of `categorizeExpense`: the first category whose
pattern list contains a matching pattern, categories named "income"
(case-insensitively) skipped. -/
def firstMatchCat (lc : String) (patterns : Patterns) : List String → Option String
  | [] => none
  | cat :: rest =>
    if lowerStr cat == "income" then firstMatchCat lc patterns rest
    else if (patterns cat).any (fun pat => patMatches lc pat) then some cat
    else firstMatchCat lc patterns rest

/-- `categorizeExpense(desc, amount, patterns, categories)` from
`src/utils/categorizeExpense.ts`: positive amounts short-circuit to
"income" when a category literally named "income" is configured; otherwise
the first matching non-income category wins; otherwise "Other" when
present, else the first category, else the empty string. -/
def categorizeExpense (desc : String) (amount : Rat) (patterns : Patterns)
    (categories : List String) : String :=
  if 0 < amount ∧ "income" ∈ categories then "income"
  else
    match firstMatchCat (lowerStr desc) patterns categories with
    | some cat => cat
    | none =>
      if "Other" ∈ categories then "Other"
      else (categories.head?).getD ""

/-- Pattern test as the specification words it for claim C4: the lowercased
description must contain the lowercased, whitespace-trimmed pattern.
Kept for comparison with the code's `patMatches`. -/
def patMatchesClaim (lc pat : String) : Bool :=
  strIncludes lc (trimStr (lowerStr pat))

/-- Category loop using the specification-worded pattern test. -/
def firstMatchCatClaim (lc : String) (patterns : Patterns) : List String → Option String
  | [] => none
  | cat :: rest =>
    if lowerStr cat == "income" then firstMatchCatClaim lc patterns rest
    else if (patterns cat).any (fun pat => patMatchesClaim lc pat) then some cat
    else firstMatchCatClaim lc patterns rest

/-- The classifier as claim C4 describes it (trimmed pattern matching),
for comparison with the code's `categorizeExpense`. -/
def categorizeExpenseClaim (desc : String) (amount : Rat) (patterns : Patterns)
    (categories : List String) : String :=
  if 0 < amount ∧ "income" ∈ categories then "income"
  else
    match firstMatchCatClaim (lowerStr desc) patterns categories with
    | some cat => cat
    | none =>
      if "Other" ∈ categories then "Other"
      else (categories.head?).getD ""

/-- Sign normalization of the per-category monthly loop
(`getCumulativePerMonthAndDataMonths`): the income category sums raw
amounts, every other category sums absolute values. -/
def monthDelta (category : String) (e : Expense) : Rat :=
  if lowerStr category == "income" then e.amount else |e.amount|

/-- The month filter of `getCumulativePerMonthAndDataMonths`: category
match (exact), year match, month match. -/
def monthFiltered (expenses : List Expense) (category : String) (year : Int)
    (m : Nat) : List Expense :=
  expenses.filter (fun e =>
    e.category == category && e.date.year == year && e.date.month == m)

/-- The shared month loop of the year-window aggregators, one recursive call
per iteration of the imperative `for (m = 0; m < 12; ++m)` loop: `flt m` is
the month-`m` filter result, `dlt` the per-transaction delta, `cumSum` the
running total and `started` the not-started/started flag; returns the
cumulative list and the has-data list. -/
def cumLoop (flt : Nat → List Expense) (dlt : Expense → Rat) :
    Nat → Nat → Rat → Bool → List Rat × List Bool
  | 0, _, _, _ => ([], [])
  | fuel + 1, m, cumSum, started =>
    let filtered := flt m
    let mSum := filtered.foldl (fun s e => s + dlt e) 0
    if !started && mSum == 0 then
      let rest := cumLoop flt dlt fuel (m + 1) cumSum started
      (0 :: rest.1, false :: rest.2)
    else
      let c := cumSum + mSum
      let rest := cumLoop flt dlt fuel (m + 1) c true
      (c :: rest.1, (!filtered.isEmpty) :: rest.2)

/-- `getCumulativePerMonthAndDataMonths(expenses, category, year)`:
12-month cumulative series and has-data flags for one category. -/
def getCumulativePerMonthAndDataMonths (expenses : List Expense)
    (category : String) (year : Int) : List Rat × List Bool :=
  cumLoop (monthFiltered expenses category year) (monthDelta category) 12 0 0 false

/-- The month filter of `getCumulativeTotalAndDataMonths`: `income = true`
keeps transactions whose category is "income" (case-insensitively),
`income = false` keeps all the others. -/
def totalMonthFiltered (expenses : List Expense) (income : Bool) (year : Int)
    (m : Nat) : List Expense :=
  expenses.filter (fun e =>
    (if income then lowerStr e.category == "income"
      else lowerStr e.category != "income") &&
    e.date.year == year && e.date.month == m)

/-- `getCumulativeTotalAndDataMonths(expenses, kind, year, categories)`:
the combined series; `kind` is the boolean `income` here, and the
`categories` argument is unused by the source body and kept for fidelity. -/
def getCumulativeTotalAndDataMonths (expenses : List Expense) (income : Bool)
    (year : Int) (_categories : List String) : List Rat × List Bool :=
  cumLoop (totalMonthFiltered expenses income year)
    (fun e => if income then e.amount else |e.amount|) 12 0 0 false

/-- `getLinearTargetProgress(target)`: twelve points, point `i` equal to
`target * ((i + 1) / 12)`. -/
def getLinearTargetProgress (target : Rat) : List Rat :=
  (List.range 12).map (fun (i : Nat) => target * (((i : Rat) + 1) / 12))

/-- One emitted point of the per-transaction series: chart position `x`/`y`
plus the original transaction's amount, description and date for tooltips. -/
structure CumPoint where
  x : Date
  y : Rat
  amount : Rat
  description : String
  date : Date
deriving DecidableEq

instance : Inhabited CumPoint := ⟨⟨default, 0, 0, "", default⟩⟩

/-- Stable insertion into an ascending-date list: the element goes after
every element whose date is not later than its own. -/
def insertByDate (e : Expense) : List Expense → List Expense
  | [] => [e]
  | x :: xs =>
    if e.date.time < x.date.time then e :: x :: xs
    else x :: insertByDate e xs

/-- The ascending-date sort of `sort((a, b) => +a.date - +b.date)`,
modelled as stable insertion sort: JS `Array.prototype.sort` is stable, and
a stable sort by a total preorder has a unique result. -/
def sortByDate : List Expense → List Expense
  | [] => []
  | e :: es => insertByDate e (sortByDate es)

/-- Per-transaction delta of `getCumulativePoints`: income keeps the raw
amount; for any other category a positive amount contributes its negation
and a non-positive amount its absolute value. -/
def txnDelta (isIncome : Bool) (a : Rat) : Rat :=
  if isIncome then a else if 0 < a then -a else |a|

/-- The accumulation walk of `getCumulativePoints` over the sorted list. -/
def cumPointsAux (isIncome : Bool) : Rat → List Expense → List CumPoint
  | _, [] => []
  | running, e :: rest =>
    let r := running + txnDelta isIncome e.amount
    ⟨e.date, r, e.amount, e.description, e.date⟩ :: cumPointsAux isIncome r rest

/-- `getCumulativePoints(expenses, category)` from the per-transaction
dashboard component: sort by date ascending, then accumulate `txnDelta`,
one point per transaction. -/
def getCumulativePoints (expenses : List Expense) (category : String) :
    List CumPoint :=
  cumPointsAux (category == "income") 0 (sortByDate expenses)

/-- One point of the per-transaction target line. -/
structure TargetPoint where
  x : Date
  y : Rat
deriving DecidableEq

/-- JS `new Date(year, month, day)` with month overflow normalized into the
year; the epoch time of the constructed date is observed by no verified
property and is modelled as 0. -/
def jsMkDate (year : Int) (month : Nat) (day : Nat) : Date :=
  ⟨0, year + (month / 12 : Nat), month % 12, day⟩

/-- `buildLinearTargetLine(expenses, yearlyTarget)`: empty when the input
list is empty or the target nonpositive; otherwise 13 monthly points from
the first expense date, point `i` at height `yearlyTarget * (i / 12)`. -/
def buildLinearTargetLine (expenses : List Expense) (yearlyTarget : Rat) :
    List TargetPoint :=
  if expenses.isEmpty ∨ yearlyTarget ≤ 0 then []
  else
    let sorted := sortByDate expenses
    let startDate := (sorted.headD default).date
    (List.range 13).map (fun i =>
      ⟨jsMkDate startDate.year (startDate.month + i) startDate.day,
        yearlyTarget * ((i : Rat) / 12)⟩)

/-- The month sum computed inside `cumLoop` (`filtered.reduce((sum, e) =>
sum + delta(e), 0)` in the source). -/
def mSumOf (flt : Nat → List Expense) (dlt : Expense → Rat) (m : Nat) : Rat :=
  (flt m).foldl (fun s e => s + dlt e) 0

/-- Partial sum of the month sums for months `m0 .. m0 + i`. -/
def mSumAcc (flt : Nat → List Expense) (dlt : Expense → Rat) (m0 i : Nat) : Rat :=
  ((List.range (i + 1)).map (fun k => mSumOf flt dlt (m0 + k))).sum

/-- Modelled from the spec: the Overspend Evaluator of spec §4.3 has no
implementation under src/ (only the spec describes it); per the spec's
words, a category is flagged iff
`abs(thisMonthTotal) > (abs(ytdTotal) / max(monthsActive, 1)) * 1.2`. -/
def flagOverspend (categories : List String) (ytdTotals : String → Rat)
    (monthsActive : Nat) (thisMonthTotals : String → Rat) : List String :=
  categories.filter (fun c =>
    decide (|thisMonthTotals c| >
      |ytdTotals c| / ((max monthsActive 1 : Nat) : Rat) * (6 / 5)))

/-- Modelled from the spec: `monthsActiveThisYear` is the count of distinct
calendar months of the given year containing at least one transaction of
any category — a global count shared across categories. -/
def monthsActiveThisYear (expenses : List Expense) (year : Int) : Nat :=
  (((expenses.filter (fun e => e.date.year == year)).map
    (fun e => e.date.month)).dedup).length

/-- Helper: the classifier loop returns the first non-income category with
a matching pattern when every earlier category is income or match-free. -/
theorem firstMatchCat_append (lc : String) (patterns : Patterns)
    (l₁ l₂ : List String) (cat : String)
    (hcat : lowerStr cat ≠ "income")
    (hmatch : (patterns cat).any (fun pat => patMatches lc pat) = true)
    (hearlier : ∀ c ∈ l₁, lowerStr c = "income" ∨
      (patterns c).any (fun pat => patMatches lc pat) = false) :
    firstMatchCat lc patterns (l₁ ++ cat :: l₂) = some cat := by
  induction l₁ with
  | nil =>
    simp only [List.nil_append, firstMatchCat]
    rw [if_neg (by simpa using hcat), if_pos hmatch]
  | cons c cs ih =>
    have hc := hearlier c (by simp)
    have hrest : ∀ x ∈ cs, lowerStr x = "income" ∨
        (patterns x).any (fun pat => patMatches lc pat) = false := by
      intro x hx
      exact hearlier x (by simp [hx])
    simp only [List.cons_append, firstMatchCat]
    rcases hc with hc | hc
    · rw [if_pos (by simpa using hc)]
      exact ih hrest
    · by_cases hinc : lowerStr c == "income"
      · rw [if_pos hinc]
        exact ih hrest
      · rw [if_neg hinc, if_neg (by simp [hc])]
        exact ih hrest

/-- Helper: the classifier loop finds nothing when no non-income category
has a matching pattern. -/
theorem firstMatchCat_none (lc : String) (patterns : Patterns)
    (categories : List String)
    (hnm : ∀ cat ∈ categories, lowerStr cat ≠ "income" →
      (patterns cat).any (fun pat => patMatches lc pat) = false) :
    firstMatchCat lc patterns categories = none := by
  induction categories with
  | nil => rfl
  | cons c cs ih =>
    have hrest : ∀ x ∈ cs, lowerStr x ≠ "income" →
        (patterns x).any (fun pat => patMatches lc pat) = false := by
      intro x hx
      exact hnm x (by simp [hx])
    simp only [firstMatchCat]
    by_cases hinc : lowerStr c == "income"
    · rw [if_pos hinc]
      exact ih hrest
    · rw [if_neg hinc,
        if_neg (by simp [hnm c (by simp) (by simpa using hinc)]), ih hrest]

/-- C3: for every description, every amount strictly greater than zero, and
every configuration whose category list contains the income category,
`categorizeExpense` returns the income category immediately; the result is
the same for every pattern table, so no pattern list is consulted. -/
theorem C3_income_short_circuit (desc : String) (amount : Rat)
    (patterns : Patterns) (categories : List String)
    (hamt : 0 < amount) (hinc : "income" ∈ categories) :
    categorizeExpense desc amount patterns categories = "income" := by
  unfold categorizeExpense
  rw [if_pos ⟨hamt, hinc⟩]

/-- C3 witness: a positive amount with "income" configured classifies as
"income" even though a pattern of another category matches the description. -/
theorem C3_income_short_circuit_witness :
    categorizeExpense "REWE Markt" 2500
      (fun c => if c = "Groceries" then ["rewe"] else []) ["income", "Groceries"]
      = "income" :=
  C3_income_short_circuit "REWE Markt" 2500
    (fun c => if c = "Groceries" then ["rewe"] else []) ["income", "Groceries"]
    (by norm_num) (by decide)

/-- C4 counterexample: category "G" (pattern "rewe " with a trailing space)
comes before "H" (pattern "rewe"); for description "rewe" the code does not
trim, "G" fails to match and `categorizeExpense` returns "H", while the
claimed trimmed matching (`categorizeExpenseClaim`) returns "G". -/
theorem C4_counterexample :
    categorizeExpense "rewe" (-1)
      (fun c => if c = "G" then ["rewe "] else if c = "H" then ["rewe"] else [])
      ["G", "H"] = "H" ∧
    categorizeExpenseClaim "rewe" (-1)
      (fun c => if c = "G" then ["rewe "] else if c = "H" then ["rewe"] else [])
      ["G", "H"] = "G" ∧
    "H" ≠ "G" := by
  refine ⟨by decide, by decide, by decide⟩

/-- C4 (amended): `categorizeExpense` iterates categories in configured
order, skipping the income category (case-insensitively); a pattern matches
iff it is nonempty and the lowercased description contains the lowercased
pattern as a substring, with no whitespace trimming; the first matching
category wins: when the income rule does not fire, every category before
`cat` is income or match-free, and `cat` has a matching pattern, the result
is `cat`. In particular, of two matching categories the first configured one
is returned. -/
theorem C4_first_match_priority (desc : String) (amount : Rat)
    (patterns : Patterns) (l₁ l₂ : List String) (cat : String)
    (hni : ¬ (0 < amount ∧ "income" ∈ l₁ ++ cat :: l₂))
    (hcat : lowerStr cat ≠ "income")
    (hmatch : (patterns cat).any (fun pat => patMatches (lowerStr desc) pat) = true)
    (hearlier : ∀ c ∈ l₁, lowerStr c = "income" ∨
      (patterns c).any (fun pat => patMatches (lowerStr desc) pat) = false) :
    categorizeExpense desc amount patterns (l₁ ++ cat :: l₂) = cat := by
  unfold categorizeExpense
  rw [if_neg hni, firstMatchCat_append (lowerStr desc) patterns l₁ l₂ cat hcat hmatch hearlier]

/-- C4 witness: categories ["income", "X", "G", "H"] where "income" is
skipped, "X" only has the empty pattern (nonempty check fails), and both
"G" and "H" match "rewe markt": the first matching category "G" wins. -/
theorem C4_first_match_priority_witness :
    categorizeExpense "REWE Markt" (-30)
      (fun c => if c = "X" then [""] else if c = "income" then ["rewe"] else
        if c = "G" then ["rewe"] else if c = "H" then ["rewe"] else [])
      (["income", "X"] ++ "G" :: ["H"]) = "G" :=
  C4_first_match_priority "REWE Markt" (-30)
    (fun c => if c = "X" then [""] else if c = "income" then ["rewe"] else
      if c = "G" then ["rewe"] else if c = "H" then ["rewe"] else [])
    ["income", "X"] ["H"] "G"
    (by refine fun h => absurd h.1 ?_; norm_num) (by decide) (by decide)
    (by decide)

/-- C5: when the income rule does not fire and no non-income category has a
matching pattern, `categorizeExpense` returns "Other" when present,
otherwise the first configured category, otherwise (empty category list)
the empty string; it is a total function, so no error is raised. -/
theorem C5_fallback (desc : String) (amount : Rat) (patterns : Patterns)
    (categories : List String)
    (hni : ¬ (0 < amount ∧ "income" ∈ categories))
    (hnm : ∀ cat ∈ categories, lowerStr cat ≠ "income" →
      (patterns cat).any (fun pat => patMatches (lowerStr desc) pat) = false) :
    categorizeExpense desc amount patterns categories =
      (if "Other" ∈ categories then "Other" else (categories.head?).getD "") := by
  unfold categorizeExpense
  rw [if_neg hni, firstMatchCat_none (lowerStr desc) patterns categories hnm]

/-- C5 witness: a description matching nothing falls back to "Other" when
configured; with an empty category list the result is the empty string. -/
theorem C5_fallback_witness :
    (categorizeExpense "zzz" (-1) (fun c => if c = "G" then ["rewe"] else [])
      ["income", "G", "Other"] = "Other") ∧
    (categorizeExpense "zzz" (-1) (fun _ => []) [] = "") := by
  constructor
  · have h := C5_fallback "zzz" (-1) (fun c => if c = "G" then ["rewe"] else [])
      ["income", "G", "Other"]
      (by refine fun h => absurd h.1 ?_; norm_num) (by decide)
    rw [h]
    decide
  · have h := C5_fallback "zzz" (-1) (fun _ => []) []
      (by refine fun h => absurd h.2 ?_; decide) (by decide)
    rw [h]
    decide

/-- Concrete fixture: income transactions where month 0 starts the series
and month 1 has two transactions netting to zero. -/
def exIncomeNetZero : List Expense :=
  [⟨⟨0, 2025, 0, 1⟩, "salary", 10, "income"⟩,
   ⟨⟨0, 2025, 1, 2⟩, "bonus", 5, "income"⟩,
   ⟨⟨0, 2025, 1, 3⟩, "fee", -5, "income"⟩]

/-- Concrete fixture: income transactions where month 1 cancels month 0,
leaving a zero cumulative value in a month that has data. -/
def exIncomeCancel : List Expense :=
  [⟨⟨0, 2025, 0, 1⟩, "salary", 5, "income"⟩,
   ⟨⟨0, 2025, 1, 2⟩, "refund", -5, "income"⟩]

/-- Unfolding equation for `mSumOf`. -/
theorem mSumOf_def (flt : Nat → List Expense) (dlt : Expense → Rat) (m : Nat) :
    mSumOf flt dlt m = (flt m).foldl (fun s e => s + dlt e) 0 := rfl

/-- Base case of the partial month sums. -/
theorem mSumAcc_zero (flt : Nat → List Expense) (dlt : Expense → Rat) (m0 : Nat) :
    mSumAcc flt dlt m0 0 = mSumOf flt dlt m0 := by
  unfold mSumAcc
  simp [List.range_succ]

/-- Peeling the first month off a partial month sum. -/
theorem mSumAcc_succ (flt : Nat → List Expense) (dlt : Expense → Rat) (m0 i : Nat) :
    mSumAcc flt dlt m0 (i + 1) = mSumOf flt dlt m0 + mSumAcc flt dlt (m0 + 1) i := by
  unfold mSumAcc
  rw [List.range_succ_eq_map]
  simp only [List.map_cons, List.sum_cons, List.map_map, Nat.add_zero]
  congr 2
  apply List.map_congr_left
  intro k _
  simp only [Function.comp_apply]
  congr 1
  omega

/-- Peeling the last month off a partial month sum. -/
theorem mSumAcc_succ_back (flt : Nat → List Expense) (dlt : Expense → Rat) (m0 i : Nat) :
    mSumAcc flt dlt m0 (i + 1) = mSumAcc flt dlt m0 i + mSumOf flt dlt (m0 + (i + 1)) := by
  unfold mSumAcc
  rw [List.range_succ]
  simp

/-- Both result lists of `cumLoop` have one entry per month walked. -/
theorem cumLoop_length (flt : Nat → List Expense) (dlt : Expense → Rat)
    (fuel : Nat) : ∀ m0 acc st,
    (cumLoop flt dlt fuel m0 acc st).1.length = fuel ∧
    (cumLoop flt dlt fuel m0 acc st).2.length = fuel := by
  induction fuel with
  | zero => intro m0 acc st; exact ⟨rfl, rfl⟩
  | succ n ih =>
    intro m0 acc st
    simp only [cumLoop]
    split
    · simpa using ih (m0 + 1) acc st
    · simpa using ih (m0 + 1) (acc + (flt m0).foldl (fun s e => s + dlt e) 0) true

/-- Once the loop has started, every later cumulative entry is the initial
total plus the partial month sums, and every has-data entry reports whether
that month's filter found a transaction. -/
theorem cumLoop_started (flt : Nat → List Expense) (dlt : Expense → Rat)
    (fuel : Nat) : ∀ m0 acc i, i < fuel →
    (cumLoop flt dlt fuel m0 acc true).1.getD i 0 = acc + mSumAcc flt dlt m0 i ∧
    (cumLoop flt dlt fuel m0 acc true).2.getD i false = !(flt (m0 + i)).isEmpty := by
  induction fuel with
  | zero => intro m0 acc i hi; exact absurd hi (Nat.not_lt_zero i)
  | succ n ih =>
    intro m0 acc i hi
    simp only [cumLoop, Bool.not_true, Bool.false_and, Bool.false_eq_true,
      if_false]
    cases i with
    | zero =>
      simp only [List.getD_cons_zero, Nat.add_zero]
      refine ⟨by rw [mSumAcc_zero, mSumOf_def], by trivial⟩
    | succ i =>
      have h := ih (m0 + 1) (acc + (flt m0).foldl (fun s e => s + dlt e) 0) i
        (by omega)
      simp only [List.getD_cons_succ]
      refine ⟨?_, ?_⟩
      · rw [h.1, mSumAcc_succ, mSumOf_def, add_assoc]
      · rw [show m0 + (i + 1) = m0 + 1 + i from by omega]
        exact h.2

/-- The not-started phase of `cumLoop`: while every month sum so far is
zero the entries are `0` / `false`; as soon as some month sum up to `i` is
nonzero, entry `i` is the partial month sum and the has-data flag reports
the month's filter result. -/
theorem cumLoop_notStarted (flt : Nat → List Expense) (dlt : Expense → Rat)
    (fuel : Nat) : ∀ m0 i, i < fuel →
    ((∀ k, k ≤ i → mSumOf flt dlt (m0 + k) = 0) →
        (cumLoop flt dlt fuel m0 0 false).1.getD i 0 = 0 ∧
        (cumLoop flt dlt fuel m0 0 false).2.getD i false = false) ∧
    ((∃ k, k ≤ i ∧ mSumOf flt dlt (m0 + k) ≠ 0) →
        (cumLoop flt dlt fuel m0 0 false).1.getD i 0 = mSumAcc flt dlt m0 i ∧
        (cumLoop flt dlt fuel m0 0 false).2.getD i false =
          !(flt (m0 + i)).isEmpty) := by
  induction fuel with
  | zero => intro m0 i hi; exact absurd hi (Nat.not_lt_zero i)
  | succ n ih =>
    intro m0 i hi
    by_cases h0 : mSumOf flt dlt m0 = 0
    · have h0' : (flt m0).foldl (fun s e => s + dlt e) 0 = 0 := h0
      simp only [cumLoop, Bool.not_false, Bool.true_and, h0', beq_self_eq_true,
        if_true]
      cases i with
      | zero =>
        constructor
        · intro _
          exact ⟨rfl, rfl⟩
        · rintro ⟨k, hk, hne⟩
          have hk0 : k = 0 := by omega
          subst hk0
          rw [Nat.add_zero] at hne
          exact absurd h0 hne
      | succ i =>
        have ihh := ih (m0 + 1) i (by omega)
        constructor
        · intro hall
          have hall' : ∀ k, k ≤ i → mSumOf flt dlt (m0 + 1 + k) = 0 := by
            intro k hk
            have hx := hall (k + 1) (by omega)
            rwa [show m0 + (k + 1) = m0 + 1 + k from by omega] at hx
          simpa only [List.getD_cons_succ] using ihh.1 hall'
        · rintro ⟨k, hk, hne⟩
          cases k with
          | zero =>
            rw [Nat.add_zero] at hne
            exact absurd h0 hne
          | succ j =>
            have hex : ∃ k, k ≤ i ∧ mSumOf flt dlt (m0 + 1 + k) ≠ 0 :=
              ⟨j, by omega, by
                rw [show m0 + 1 + j = m0 + (j + 1) from by omega]
                exact hne⟩
            have hres := ihh.2 hex
            simp only [List.getD_cons_succ]
            refine ⟨?_, ?_⟩
            · rw [mSumAcc_succ, h0, zero_add]
              exact hres.1
            · rw [show m0 + (i + 1) = m0 + 1 + i from by omega]
              exact hres.2
    · have h0' : ¬ (flt m0).foldl (fun s e => s + dlt e) 0 = 0 := h0
      simp only [cumLoop, Bool.not_false, Bool.true_and]
      rw [if_neg (by simpa using h0')]
      cases i with
      | zero =>
        constructor
        · intro hall
          have hx := hall 0 (Nat.le_refl 0)
          rw [Nat.add_zero] at hx
          exact absurd hx h0
        · intro _
          simp only [List.getD_cons_zero, Nat.add_zero]
          refine ⟨by rw [mSumAcc_zero, mSumOf_def, zero_add], by trivial⟩
      | succ i =>
        constructor
        · intro hall
          have hx := hall 0 (Nat.zero_le _)
          rw [Nat.add_zero] at hx
          exact absurd hx h0
        · intro _
          have h := cumLoop_started flt dlt n (m0 + 1)
            (0 + (flt m0).foldl (fun s e => s + dlt e) 0) i (by omega)
          simp only [List.getD_cons_succ]
          refine ⟨?_, ?_⟩
          · rw [h.1, mSumAcc_succ, mSumOf_def, zero_add]
          · rw [show m0 + (i + 1) = m0 + 1 + i from by omega]
            exact h.2

/-- With an everywhere-empty month filter the loop emits zeros and falses. -/
theorem cumLoop_empty (flt : Nat → List Expense) (dlt : Expense → Rat)
    (h : ∀ m, flt m = []) (fuel : Nat) : ∀ m0,
    cumLoop flt dlt fuel m0 0 false =
      (List.replicate fuel 0, List.replicate fuel false) := by
  induction fuel with
  | zero => intro m0; rfl
  | succ n ih =>
    intro m0
    have h0 : (flt m0).foldl (fun s e => s + dlt e) 0 = 0 := by rw [h m0]; rfl
    simp only [cumLoop, Bool.not_false, Bool.true_and, h0, beq_self_eq_true,
      if_true]
    rw [ih (m0 + 1)]
    rfl

/-- C1: in the year-window monthly aggregation, while every sign-normalized
month sum up to month `m` is zero, the point at `m` is `cumulative = 0`,
`hasData = false`; once some month sum up to `m` is nonzero, the cumulative
value at `m` equals the sum of all month sums through `m` (so it grows by
exactly that month's sum each month, zero months included) and `hasData`
reports whether month `m`'s filtered transaction list is nonempty. -/
theorem C1_monthly_state_machine (expenses : List Expense) (category : String)
    (year : Int) (m : Nat) (hm : m < 12) :
    ((∀ k, k ≤ m →
        mSumOf (monthFiltered expenses category year) (monthDelta category) k = 0) →
      (getCumulativePerMonthAndDataMonths expenses category year).1.getD m 0 = 0 ∧
      (getCumulativePerMonthAndDataMonths expenses category year).2.getD m false
        = false) ∧
    ((∃ k, k ≤ m ∧
        mSumOf (monthFiltered expenses category year) (monthDelta category) k ≠ 0) →
      (getCumulativePerMonthAndDataMonths expenses category year).1.getD m 0 =
        mSumAcc (monthFiltered expenses category year) (monthDelta category) 0 m ∧
      (getCumulativePerMonthAndDataMonths expenses category year).2.getD m false =
        !(monthFiltered expenses category year m).isEmpty) := by
  have h := cumLoop_notStarted (monthFiltered expenses category year)
    (monthDelta category) 12 0 m hm
  simpa using h

/-- C1 witness: a category with transactions only in months 6 and 8 of 2025
reports `cumulative = 0, hasData = false` at month 3, and at month 8 the
cumulative equals the accumulated month sums with `hasData = true`. -/
theorem C1_monthly_state_machine_witness :
    ((∀ k, k ≤ 3 →
        mSumOf
          (monthFiltered
            [⟨⟨0, 2025, 6, 10⟩, "gym", -50, "G"⟩, ⟨⟨0, 2025, 8, 2⟩, "gym", -20, "G"⟩]
            "G" 2025) (monthDelta "G") k = 0) ∧
      (getCumulativePerMonthAndDataMonths
        [⟨⟨0, 2025, 6, 10⟩, "gym", -50, "G"⟩, ⟨⟨0, 2025, 8, 2⟩, "gym", -20, "G"⟩]
        "G" 2025).1.getD 3 0 = 0 ∧
      (getCumulativePerMonthAndDataMonths
        [⟨⟨0, 2025, 6, 10⟩, "gym", -50, "G"⟩, ⟨⟨0, 2025, 8, 2⟩, "gym", -20, "G"⟩]
        "G" 2025).2.getD 3 false = false) ∧
    ((∃ k, k ≤ 8 ∧
        mSumOf
          (monthFiltered
            [⟨⟨0, 2025, 6, 10⟩, "gym", -50, "G"⟩, ⟨⟨0, 2025, 8, 2⟩, "gym", -20, "G"⟩]
            "G" 2025) (monthDelta "G") k ≠ 0) ∧
      (getCumulativePerMonthAndDataMonths
        [⟨⟨0, 2025, 6, 10⟩, "gym", -50, "G"⟩, ⟨⟨0, 2025, 8, 2⟩, "gym", -20, "G"⟩]
        "G" 2025).1.getD 8 0 =
        mSumAcc
          (monthFiltered
            [⟨⟨0, 2025, 6, 10⟩, "gym", -50, "G"⟩, ⟨⟨0, 2025, 8, 2⟩, "gym", -20, "G"⟩]
            "G" 2025) (monthDelta "G") 0 8 ∧
      (getCumulativePerMonthAndDataMonths
        [⟨⟨0, 2025, 6, 10⟩, "gym", -50, "G"⟩, ⟨⟨0, 2025, 8, 2⟩, "gym", -20, "G"⟩]
        "G" 2025).2.getD 8 false =
        !(monthFiltered
          [⟨⟨0, 2025, 6, 10⟩, "gym", -50, "G"⟩, ⟨⟨0, 2025, 8, 2⟩, "gym", -20, "G"⟩]
          "G" 2025 8).isEmpty) := by
  have hall : ∀ k, k ≤ 3 →
      mSumOf
        (monthFiltered
          [⟨⟨0, 2025, 6, 10⟩, "gym", -50, "G"⟩, ⟨⟨0, 2025, 8, 2⟩, "gym", -20, "G"⟩]
          "G" 2025) (monthDelta "G") k = 0 := by decide
  have hne : mSumOf
      (monthFiltered
        [⟨⟨0, 2025, 6, 10⟩, "gym", -50, "G"⟩, ⟨⟨0, 2025, 8, 2⟩, "gym", -20, "G"⟩]
        "G" 2025) (monthDelta "G") 6 ≠ 0 := by
    have hf : monthFiltered
        [⟨⟨0, 2025, 6, 10⟩, "gym", -50, "G"⟩, ⟨⟨0, 2025, 8, 2⟩, "gym", -20, "G"⟩]
        "G" 2025 6 = [⟨⟨0, 2025, 6, 10⟩, "gym", -50, "G"⟩] := by decide
    have hd : monthDelta "G" = fun e => |e.amount| := by
      funext e
      simp [monthDelta, show (lowerStr "G" == "income") = false from by decide]
    rw [mSumOf, hf, hd]
    norm_num
  exact ⟨⟨hall,
      (C1_monthly_state_machine _ "G" 2025 3 (by norm_num)).1 hall⟩,
    ⟨6, by norm_num, hne⟩,
    (C1_monthly_state_machine _ "G" 2025 8 (by norm_num)).2 ⟨6, by norm_num, hne⟩⟩

/-- C6: when no transaction of the requested category is present, the
year-window aggregation returns the all-zero 12-point series with
`hasData = false` throughout, and the target-line builder returns the empty
line; both are total functions, so no error is signalled. -/
theorem C6_empty_input (expenses : List Expense) (category : String)
    (year : Int) (target : Rat)
    (h : expenses.filter (fun e => e.category == category) = []) :
    getCumulativePerMonthAndDataMonths expenses category year =
      (List.replicate 12 0, List.replicate 12 false) ∧
    buildLinearTargetLine (expenses.filter (fun e => e.category == category))
      target = [] := by
  constructor
  · have hm : ∀ m, monthFiltered expenses category year m = [] := by
      intro m
      unfold monthFiltered
      rw [List.filter_eq_nil_iff]
      intro e he
      have hcat := List.filter_eq_nil_iff.mp h e he
      simp only [Bool.and_eq_true]
      rintro ⟨⟨h1, -⟩, -⟩
      exact hcat h1
    exact cumLoop_empty _ _ hm 12 0
  · rw [h]
    rfl

/-- C6 witness: a list with a single transaction of another category yields
the all-zero series and the empty target line for category "G". -/
theorem C6_empty_input_witness :
    getCumulativePerMonthAndDataMonths [⟨⟨0, 2025, 1, 1⟩, "a", -5, "H"⟩] "G" 2025 =
      (List.replicate 12 0, List.replicate 12 false) ∧
    buildLinearTargetLine
      (([⟨⟨0, 2025, 1, 1⟩, "a", -5, "H"⟩] : List Expense).filter
        (fun e => e.category == "G")) 100 = [] :=
  C6_empty_input [⟨⟨0, 2025, 1, 1⟩, "a", -5, "H"⟩] "G" 2025 100 (by decide)

/-- C7: for every yearly target `T > 0` the target-progress line has
exactly twelve points, point `i` (0-indexed) equals `T * ((i + 1) / 12)`
independently of any transaction data, and for `T = 1200` the line is
`[100, 200, ..., 1200]`. -/
theorem C7_linear_target_progress (target : Rat) (ht : 0 < target) :
    (getLinearTargetProgress target).length = 12 ∧
    (∀ i, i < 12 →
      (getLinearTargetProgress target).getD i 0 =
        target * (((i : Rat) + 1) / 12)) ∧
    getLinearTargetProgress 1200 =
      [100, 200, 300, 400, 500, 600, 700, 800, 900, 1000, 1100, 1200] := by
  refine ⟨?_, ?_, ?_⟩
  · unfold getLinearTargetProgress
    rw [List.length_map, List.length_range]
  · intro i hi
    unfold getLinearTargetProgress
    rw [List.getD_eq_getElem?_getD, List.getElem?_map, List.getElem?_range hi]
    rfl
  · norm_num [getLinearTargetProgress, List.range_succ]

/-- C7 witness: the theorem applied at the concrete target 1200. -/
theorem C7_linear_target_progress_witness :
    (0 : Rat) < 1200 ∧
    getLinearTargetProgress 1200 =
      [100, 200, 300, 400, 500, 600, 700, 800, 900, 1000, 1100, 1200] :=
  ⟨by norm_num, (C7_linear_target_progress 1200 (by norm_num)).2.2⟩

/-- C8: `hasData` at month `m` is true only when at least one transaction
landed in month `m`; it does not track whether the cumulative value is
nonzero: a started month whose transactions net to zero still reports
`hasData = true` while the cumulative value stays unchanged (fixture
`exIncomeNetZero`, month 1), and a month whose cumulative value is zero can
report `hasData = true` (fixture `exIncomeCancel`, month 1). -/
theorem C8_hasData_only_if_transactions :
    (∀ (expenses : List Expense) (category : String) (year : Int) (m : Nat),
      m < 12 →
      (getCumulativePerMonthAndDataMonths expenses category year).2.getD m false
        = true →
      monthFiltered expenses category year m ≠ []) ∧
    ((getCumulativePerMonthAndDataMonths exIncomeNetZero "income" 2025).2.getD 1
        false = true ∧
      (getCumulativePerMonthAndDataMonths exIncomeNetZero "income" 2025).1.getD 1
        0 = 10) ∧
    ((getCumulativePerMonthAndDataMonths exIncomeCancel "income" 2025).1.getD 1
        0 = 0 ∧
      (getCumulativePerMonthAndDataMonths exIncomeCancel "income" 2025).2.getD 1
        false = true) := by
  have hd : monthDelta "income" = fun e => e.amount := by
    funext e
    simp [monthDelta, show (lowerStr "income" == "income") = true from by decide]
  refine ⟨?_, ?_, ?_⟩
  · intro expenses category year m hm htrue
    unfold getCumulativePerMonthAndDataMonths at htrue
    by_cases hall : ∀ k, k ≤ m →
        mSumOf (monthFiltered expenses category year) (monthDelta category) k = 0
    · have h := (cumLoop_notStarted (monthFiltered expenses category year)
        (monthDelta category) 12 0 m hm).1 (by simpa using hall)
      rw [h.2] at htrue
      exact absurd htrue (by simp)
    · push_neg at hall
      obtain ⟨k, hk, hne⟩ := hall
      have h := (cumLoop_notStarted (monthFiltered expenses category year)
        (monthDelta category) 12 0 m hm).2 ⟨k, hk, by simpa using hne⟩
      rw [h.2] at htrue
      simp only [Nat.zero_add] at htrue
      intro hnil
      rw [hnil] at htrue
      simp at htrue
  · have hf0 : monthFiltered exIncomeNetZero "income" 2025 0 =
        [⟨⟨0, 2025, 0, 1⟩, "salary", 10, "income"⟩] := by decide
    have hf1 : monthFiltered exIncomeNetZero "income" 2025 1 =
        [⟨⟨0, 2025, 1, 2⟩, "bonus", 5, "income"⟩,
         ⟨⟨0, 2025, 1, 3⟩, "fee", -5, "income"⟩] := by decide
    have hm0 : mSumOf (monthFiltered exIncomeNetZero "income" 2025)
        (monthDelta "income") 0 = 10 := by
      rw [mSumOf_def, hf0, hd]; norm_num
    have hm1 : mSumOf (monthFiltered exIncomeNetZero "income" 2025)
        (monthDelta "income") 1 = 0 := by
      rw [mSumOf_def, hf1, hd]; norm_num
    have h := (cumLoop_notStarted (monthFiltered exIncomeNetZero "income" 2025)
      (monthDelta "income") 12 0 1 (by norm_num)).2
      ⟨0, by norm_num, by simp only [Nat.add_zero]; rw [hm0]; norm_num⟩
    constructor
    · unfold getCumulativePerMonthAndDataMonths
      rw [h.2]
      decide
    · unfold getCumulativePerMonthAndDataMonths
      rw [h.1, mSumAcc_succ, mSumAcc_zero]
      simp only [Nat.zero_add]
      rw [hm0, hm1]
      norm_num
  · have hf0 : monthFiltered exIncomeCancel "income" 2025 0 =
        [⟨⟨0, 2025, 0, 1⟩, "salary", 5, "income"⟩] := by decide
    have hf1 : monthFiltered exIncomeCancel "income" 2025 1 =
        [⟨⟨0, 2025, 1, 2⟩, "refund", -5, "income"⟩] := by decide
    have hm0 : mSumOf (monthFiltered exIncomeCancel "income" 2025)
        (monthDelta "income") 0 = 5 := by
      rw [mSumOf_def, hf0, hd]; norm_num
    have hm1 : mSumOf (monthFiltered exIncomeCancel "income" 2025)
        (monthDelta "income") 1 = -5 := by
      rw [mSumOf_def, hf1, hd]; norm_num
    have h := (cumLoop_notStarted (monthFiltered exIncomeCancel "income" 2025)
      (monthDelta "income") 12 0 1 (by norm_num)).2
      ⟨0, by norm_num, by simp only [Nat.add_zero]; rw [hm0]; norm_num⟩
    constructor
    · unfold getCumulativePerMonthAndDataMonths
      rw [h.1, mSumAcc_succ, mSumAcc_zero]
      simp only [Nat.zero_add]
      rw [hm0, hm1]
      norm_num
    · unfold getCumulativePerMonthAndDataMonths
      rw [h.2]
      decide

/-- C8 witness: the universal part applied at `exIncomeNetZero`, month 1
(which has data), concluding the month's filter result is nonempty. -/
theorem C8_hasData_only_if_transactions_witness :
    (getCumulativePerMonthAndDataMonths exIncomeNetZero "income" 2025).2.getD 1
      false = true ∧
    monthFiltered exIncomeNetZero "income" 2025 1 ≠ [] := by
  have ht := C8_hasData_only_if_transactions.2.1.1
  exact ⟨ht, C8_hasData_only_if_transactions.1 exIncomeNetZero "income" 2025 1
    (by norm_num) ht⟩

/-- Folding additions equals adding the mapped sum. -/
theorem foldl_add_map (dlt : Expense → Rat) (l : List Expense) : ∀ acc,
    l.foldl (fun s e => s + dlt e) acc = acc + (l.map dlt).sum := by
  induction l with
  | nil => intro acc; simp
  | cons e es ih =>
    intro acc
    simp only [List.foldl_cons, List.map_cons, List.sum_cons, ih]
    ring

/-- A month sum of a pointwise-nonnegative delta is nonnegative. -/
theorem mSumOf_nonneg (flt : Nat → List Expense) (dlt : Expense → Rat)
    (hd : ∀ e, 0 ≤ dlt e) (m : Nat) : 0 ≤ mSumOf flt dlt m := by
  rw [mSumOf_def, foldl_add_map, zero_add]
  apply List.sum_nonneg
  intro x hx
  obtain ⟨e, -, rfl⟩ := List.mem_map.mp hx
  exact hd e

/-- Partial month sums of a nonnegative delta are nonnegative. -/
theorem mSumAcc_nonneg (flt : Nat → List Expense) (dlt : Expense → Rat)
    (hd : ∀ e, 0 ≤ dlt e) : ∀ i m0, 0 ≤ mSumAcc flt dlt m0 i := by
  intro i
  induction i with
  | zero =>
    intro m0
    rw [mSumAcc_zero]
    exact mSumOf_nonneg flt dlt hd m0
  | succ n ih =>
    intro m0
    rw [mSumAcc_succ]
    exact add_nonneg (mSumOf_nonneg flt dlt hd m0) (ih (m0 + 1))

/-- Partial month sums of a nonnegative delta are monotone in the month. -/
theorem mSumAcc_mono (flt : Nat → List Expense) (dlt : Expense → Rat)
    (hd : ∀ e, 0 ≤ dlt e) (m0 : Nat) :
    ∀ i j, i ≤ j → mSumAcc flt dlt m0 i ≤ mSumAcc flt dlt m0 j := by
  intro i j
  induction j with
  | zero =>
    intro hij
    have hi0 : i = 0 := by omega
    subst hi0
    exact le_refl _
  | succ n ih =>
    intro hij
    rcases Nat.lt_or_ge i (n + 1) with h | h
    · have h1 := ih (by omega)
      rw [mSumAcc_succ_back]
      have h2 := mSumOf_nonneg flt dlt hd (m0 + (n + 1))
      linarith
    · have hi : i = n + 1 := by omega
      subst hi
      exact le_refl _

/-- On the 12-month window, a nonnegative delta makes the cumulative list
of `cumLoop` nonnegative and monotone. -/
theorem cumLoop_nonneg_mono (flt : Nat → List Expense) (dlt : Expense → Rat)
    (hd : ∀ e, 0 ≤ dlt e) (i j : Nat) (hij : i ≤ j) (hj : j < 12) :
    0 ≤ (cumLoop flt dlt 12 0 0 false).1.getD i 0 ∧
    (cumLoop flt dlt 12 0 0 false).1.getD i 0 ≤
      (cumLoop flt dlt 12 0 0 false).1.getD j 0 := by
  have hi : i < 12 := by omega
  by_cases hallj : ∀ k, k ≤ j → mSumOf flt dlt (0 + k) = 0
  · have halli : ∀ k, k ≤ i → mSumOf flt dlt (0 + k) = 0 :=
      fun k hk => hallj k (by omega)
    have h1 := (cumLoop_notStarted flt dlt 12 0 i hi).1 halli
    have h2 := (cumLoop_notStarted flt dlt 12 0 j hj).1 hallj
    rw [h1.1, h2.1]
    exact ⟨le_refl 0, le_refl 0⟩
  · push_neg at hallj
    obtain ⟨k, hk, hne⟩ := hallj
    have h2 := (cumLoop_notStarted flt dlt 12 0 j hj).2 ⟨k, hk, hne⟩
    by_cases halli : ∀ k, k ≤ i → mSumOf flt dlt (0 + k) = 0
    · have h1 := (cumLoop_notStarted flt dlt 12 0 i hi).1 halli
      rw [h1.1, h2.1]
      exact ⟨le_refl 0, mSumAcc_nonneg flt dlt hd j 0⟩
    · push_neg at halli
      obtain ⟨k', hk', hne'⟩ := halli
      have h1 := (cumLoop_notStarted flt dlt 12 0 i hi).2 ⟨k', hk', hne'⟩
      rw [h1.1, h2.1]
      exact ⟨mSumAcc_nonneg flt dlt hd i 0, mSumAcc_mono flt dlt hd 0 i j hij⟩

/-- C10 (implicit): for a non-income category the 12-point monthly
cumulative series is monotonically non-decreasing with every point at least
zero, because each monthly delta is a sum of absolute values; the same
holds for the combined all-expense series. -/
theorem C10_monotone_nonneg (expenses : List Expense) (category : String)
    (year : Int) (categories : List String)
    (hcat : lowerStr category ≠ "income") (i j : Nat) (hij : i ≤ j)
    (hj : j < 12) :
    (0 ≤ (getCumulativePerMonthAndDataMonths expenses category year).1.getD i 0 ∧
      (getCumulativePerMonthAndDataMonths expenses category year).1.getD i 0 ≤
        (getCumulativePerMonthAndDataMonths expenses category year).1.getD j 0) ∧
    (0 ≤ (getCumulativeTotalAndDataMonths expenses false year
        categories).1.getD i 0 ∧
      (getCumulativeTotalAndDataMonths expenses false year
        categories).1.getD i 0 ≤
        (getCumulativeTotalAndDataMonths expenses false year
          categories).1.getD j 0) := by
  constructor
  · have hd : ∀ e, 0 ≤ monthDelta category e := by
      intro e
      rw [monthDelta, if_neg (by simpa using hcat)]
      exact abs_nonneg _
    exact cumLoop_nonneg_mono _ _ hd i j hij hj
  · have hd : ∀ e : Expense,
        0 ≤ (if (false : Bool) then e.amount else |e.amount|) := by
      intro e
      simp only [Bool.false_eq_true, if_false]
      exact abs_nonneg _
    exact cumLoop_nonneg_mono _ _ hd i j hij hj

/-- C10 witness: the theorem applied to a concrete expense list for
category "G" at months 1 and 5. -/
theorem C10_monotone_nonneg_witness :
    lowerStr "G" ≠ "income" ∧
    ((0 ≤ (getCumulativePerMonthAndDataMonths
        [⟨⟨0, 2025, 2, 1⟩, "a", -30, "G"⟩] "G" 2025).1.getD 1 0 ∧
      (getCumulativePerMonthAndDataMonths
        [⟨⟨0, 2025, 2, 1⟩, "a", -30, "G"⟩] "G" 2025).1.getD 1 0 ≤
        (getCumulativePerMonthAndDataMonths
          [⟨⟨0, 2025, 2, 1⟩, "a", -30, "G"⟩] "G" 2025).1.getD 5 0) ∧
    (0 ≤ (getCumulativeTotalAndDataMonths
        [⟨⟨0, 2025, 2, 1⟩, "a", -30, "G"⟩] false 2025 ["G"]).1.getD 1 0 ∧
      (getCumulativeTotalAndDataMonths
        [⟨⟨0, 2025, 2, 1⟩, "a", -30, "G"⟩] false 2025 ["G"]).1.getD 1 0 ≤
        (getCumulativeTotalAndDataMonths
          [⟨⟨0, 2025, 2, 1⟩, "a", -30, "G"⟩] false 2025 ["G"]).1.getD 5 0)) :=
  ⟨by decide, C10_monotone_nonneg [⟨⟨0, 2025, 2, 1⟩, "a", -30, "G"⟩] "G" 2025
    ["G"] (by decide) 1 5 (by norm_num) (by norm_num)⟩

/-- Membership after insertion. -/
theorem mem_insertByDate (e x : Expense) (l : List Expense) :
    x ∈ insertByDate e l ↔ x = e ∨ x ∈ l := by
  induction l with
  | nil => simp [insertByDate]
  | cons a as ih =>
    rw [insertByDate]
    split
    · simp only [List.mem_cons]
    · simp only [List.mem_cons, ih]
      tauto

/-- Insertion preserves the ascending-by-date pairwise order. -/
theorem pairwise_insertByDate (e : Expense) (l : List Expense)
    (h : List.Pairwise (fun a b => a.date.time ≤ b.date.time) l) :
    List.Pairwise (fun a b => a.date.time ≤ b.date.time) (insertByDate e l) := by
  induction l with
  | nil => simp [insertByDate]
  | cons a as ih =>
    rw [insertByDate]
    rcases List.pairwise_cons.mp h with ⟨ha, has⟩
    split
    · rename_i hlt
      refine List.pairwise_cons.mpr ⟨?_, h⟩
      intro b hb
      rcases List.mem_cons.mp hb with rfl | hb
      · omega
      · have := ha b hb
        omega
    · rename_i hnlt
      refine List.pairwise_cons.mpr ⟨?_, ih has⟩
      intro b hb
      rcases (mem_insertByDate e b as).mp hb with rfl | hb
      · omega
      · exact ha b hb

/-- The sort output is pairwise ascending by date. -/
theorem sortByDate_pairwise (l : List Expense) :
    List.Pairwise (fun a b => a.date.time ≤ b.date.time) (sortByDate l) := by
  induction l with
  | nil => simp [sortByDate]
  | cons e es ih => exact pairwise_insertByDate e _ ih

/-- Insertion grows the length by one. -/
theorem length_insertByDate (e : Expense) (l : List Expense) :
    (insertByDate e l).length = l.length + 1 := by
  induction l with
  | nil => rfl
  | cons a as ih =>
    rw [insertByDate]
    split
    · rfl
    · simp [ih]

/-- Sorting preserves the length. -/
theorem length_sortByDate (l : List Expense) :
    (sortByDate l).length = l.length := by
  induction l with
  | nil => rfl
  | cons e es ih =>
    rw [sortByDate, length_insertByDate, ih]
    rfl

/-- The accumulation walk emits one point per transaction. -/
theorem cumPointsAux_length (b : Bool) (l : List Expense) : ∀ (r0 : Rat),
    (cumPointsAux b r0 l).length = l.length := by
  induction l with
  | nil => intro r0; rfl
  | cons e es ih =>
    intro r0
    simp [cumPointsAux, ih]

/-- Each emitted point carries its transaction's date and amount. -/
theorem cumPointsAux_fields (b : Bool) (l : List Expense) :
    ∀ (r0 : Rat) (i : Nat), i < l.length →
    ((cumPointsAux b r0 l).getD i default).date = (l.getD i default).date ∧
    ((cumPointsAux b r0 l).getD i default).amount = (l.getD i default).amount := by
  induction l with
  | nil => intro r0 i hi; simp at hi
  | cons e es ih =>
    intro r0 i hi
    cases i with
    | zero => exact ⟨rfl, rfl⟩
    | succ i =>
      simp only [cumPointsAux, List.getD_cons_succ]
      exact ih _ i (by simpa using hi)

/-- Each emitted point's running total is the previous total (the start
value for the first point) plus its own transaction's delta. -/
theorem cumPointsAux_y (b : Bool) (l : List Expense) :
    ∀ (r0 : Rat) (i : Nat), i < l.length →
    ((cumPointsAux b r0 l).getD i default).y =
      (if i = 0 then r0 else ((cumPointsAux b r0 l).getD (i - 1) default).y) +
      txnDelta b (((cumPointsAux b r0 l).getD i default).amount) := by
  induction l with
  | nil => intro r0 i hi; simp at hi
  | cons e es ih =>
    intro r0 i hi
    cases i with
    | zero => simp [cumPointsAux]
    | succ i =>
      cases i with
      | zero =>
        have h0 : 0 < es.length := by simpa using hi
        have ihh := ih (r0 + txnDelta b e.amount) 0 h0
        simp only [cumPointsAux, List.getD_cons_succ, List.getD_cons_zero] at ihh ⊢
        simpa using ihh
      | succ j =>
        have hj : j + 1 < es.length := by simpa using hi
        have ihh := ih (r0 + txnDelta b e.amount) (j + 1) hj
        simp only [cumPointsAux, List.getD_cons_succ] at ihh ⊢
        simpa using ihh

/-- C2 counterexample: an expense-category transaction with positive amount
5 contributes -5 (its negation), not abs(5) = 5, to the running total. -/
theorem C2_per_transaction_counterexample :
    (getCumulativePoints [⟨⟨0, 2025, 3, 5⟩, "refund credited", 5, "G"⟩] "G").map
      (fun p => p.y) = [-5] ∧
    ¬ ((-5 : Rat) = |(5 : Rat)|) := by
  constructor
  · norm_num [getCumulativePoints, sortByDate, insertByDate, cumPointsAux,
      txnDelta, show ("G" == "income") = false from by decide]
  · norm_num

/-- C2 (amended): for a non-income category, `getCumulativePoints` emits
one point per transaction, in ascending date order, and each transaction's
contribution to the running total is `-amount` when the amount is positive
and `abs(amount)` otherwise (so credits reduce the running expense total
instead of increasing it). -/
theorem C2_per_transaction_amended (expenses : List Expense) (category : String)
    (hcat : category ≠ "income") :
    (getCumulativePoints expenses category).length = expenses.length ∧
    (∀ i, i + 1 < (getCumulativePoints expenses category).length →
      ((getCumulativePoints expenses category).getD i default).date.time ≤
        ((getCumulativePoints expenses category).getD (i + 1) default).date.time) ∧
    (∀ i, i < (getCumulativePoints expenses category).length →
      ((getCumulativePoints expenses category).getD i default).y =
        (if i = 0 then 0
          else ((getCumulativePoints expenses category).getD (i - 1) default).y) +
        (if 0 < ((getCumulativePoints expenses category).getD i default).amount
          then -((getCumulativePoints expenses category).getD i default).amount
          else |((getCumulativePoints expenses category).getD i default).amount|)) := by
  have hb : (category == "income") = false := by
    simpa using hcat
  unfold getCumulativePoints
  rw [hb]
  refine ⟨?_, ?_, ?_⟩
  · rw [cumPointsAux_length, length_sortByDate]
  · intro i hi
    rw [cumPointsAux_length] at hi
    have hd1 := (cumPointsAux_fields false (sortByDate expenses) 0 i
      (by omega)).1
    have hd2 := (cumPointsAux_fields false (sortByDate expenses) 0 (i + 1)
      hi).1
    rw [hd1, hd2]
    have hp := sortByDate_pairwise expenses
    have hrel := List.pairwise_iff_get.mp hp ⟨i, by omega⟩ ⟨i + 1, hi⟩
      (by exact Nat.lt_succ_self i)
    have hg1 : (sortByDate expenses).getD i default =
        (sortByDate expenses).get ⟨i, by omega⟩ := by
      rw [List.getD_eq_getElem?_getD, List.getElem?_eq_getElem (by omega)]
      rfl
    have hg2 : (sortByDate expenses).getD (i + 1) default =
        (sortByDate expenses).get ⟨i + 1, hi⟩ := by
      rw [List.getD_eq_getElem?_getD, List.getElem?_eq_getElem hi]
      rfl
    rw [hg1, hg2]
    exact hrel
  · intro i hi
    rw [cumPointsAux_length] at hi
    have hy := cumPointsAux_y false (sortByDate expenses) 0 i hi
    rw [hy]
    rfl

/-- C2 witness: the amended theorem applied to two "G" transactions given
out of date order, one with a positive (credit) amount. -/
theorem C2_per_transaction_amended_witness :
    "G" ≠ "income" ∧
    ((getCumulativePoints
        [⟨⟨5, 2025, 2, 1⟩, "b", -20, "G"⟩, ⟨⟨3, 2025, 1, 10⟩, "a", 5, "G"⟩]
        "G").length =
      ([⟨⟨5, 2025, 2, 1⟩, "b", -20, "G"⟩,
        ⟨⟨3, 2025, 1, 10⟩, "a", 5, "G"⟩] : List Expense).length ∧
    (∀ i, i + 1 < (getCumulativePoints
        [⟨⟨5, 2025, 2, 1⟩, "b", -20, "G"⟩, ⟨⟨3, 2025, 1, 10⟩, "a", 5, "G"⟩]
        "G").length →
      ((getCumulativePoints
        [⟨⟨5, 2025, 2, 1⟩, "b", -20, "G"⟩, ⟨⟨3, 2025, 1, 10⟩, "a", 5, "G"⟩]
        "G").getD i default).date.time ≤
        ((getCumulativePoints
          [⟨⟨5, 2025, 2, 1⟩, "b", -20, "G"⟩, ⟨⟨3, 2025, 1, 10⟩, "a", 5, "G"⟩]
          "G").getD (i + 1) default).date.time) ∧
    (∀ i, i < (getCumulativePoints
        [⟨⟨5, 2025, 2, 1⟩, "b", -20, "G"⟩, ⟨⟨3, 2025, 1, 10⟩, "a", 5, "G"⟩]
        "G").length →
      ((getCumulativePoints
        [⟨⟨5, 2025, 2, 1⟩, "b", -20, "G"⟩, ⟨⟨3, 2025, 1, 10⟩, "a", 5, "G"⟩]
        "G").getD i default).y =
        (if i = 0 then 0
          else ((getCumulativePoints
            [⟨⟨5, 2025, 2, 1⟩, "b", -20, "G"⟩, ⟨⟨3, 2025, 1, 10⟩, "a", 5, "G"⟩]
            "G").getD (i - 1) default).y) +
        (if 0 < ((getCumulativePoints
            [⟨⟨5, 2025, 2, 1⟩, "b", -20, "G"⟩, ⟨⟨3, 2025, 1, 10⟩, "a", 5, "G"⟩]
            "G").getD i default).amount
          then -((getCumulativePoints
            [⟨⟨5, 2025, 2, 1⟩, "b", -20, "G"⟩, ⟨⟨3, 2025, 1, 10⟩, "a", 5, "G"⟩]
            "G").getD i default).amount
          else |((getCumulativePoints
            [⟨⟨5, 2025, 2, 1⟩, "b", -20, "G"⟩, ⟨⟨3, 2025, 1, 10⟩, "a", 5, "G"⟩]
            "G").getD i default).amount|))) :=
  ⟨by decide, C2_per_transaction_amended
    [⟨⟨5, 2025, 2, 1⟩, "b", -20, "G"⟩, ⟨⟨3, 2025, 1, 10⟩, "a", 5, "G"⟩] "G"
    (by decide)⟩

/-- C9: a category is flagged by the overspend evaluator iff the absolute
current-month total exceeds `abs(YTD total) / max(monthsActive, 1)` times
the hard-coded factor 1.2, where the active-month count is a single global
input shared by all categories — `monthsActiveThisYear` counts distinct
months with a transaction of any category, so one month of "A" plus a
different month of "B" count as 2; a YTD total of -1000 over 2 active
months flags a current month of -650 and does not flag -550. -/
theorem C9_overspend_policy :
    (∀ (categories : List String) (ytdTotals : String → Rat)
        (monthsActive : Nat) (thisMonthTotals : String → Rat) (c : String),
      c ∈ flagOverspend categories ytdTotals monthsActive thisMonthTotals ↔
        c ∈ categories ∧
          |thisMonthTotals c| >
            |ytdTotals c| / ((max monthsActive 1 : Nat) : Rat) * (6 / 5)) ∧
    monthsActiveThisYear
      [⟨⟨0, 2025, 0, 1⟩, "a", -10, "A"⟩, ⟨⟨0, 2025, 1, 1⟩, "b", -10, "B"⟩]
      2025 = 2 ∧
    flagOverspend ["A"] (fun _ => -1000) 2 (fun _ => -650) = ["A"] ∧
    flagOverspend ["A"] (fun _ => -1000) 2 (fun _ => -550) = [] := by
  refine ⟨?_, by decide, ?_, ?_⟩
  · intro categories ytd months thisM c
    simp [flagOverspend, List.mem_filter]
  · rw [flagOverspend, List.filter_cons]
    rw [if_pos (by norm_num [Nat.max_def]), List.filter_nil]
  · rw [flagOverspend, List.filter_cons]
    rw [if_neg (by norm_num [Nat.max_def]), List.filter_nil]

/-- C9 witness: the flagging criterion applied to the concrete overspend
example (average 500, threshold 600, month total 650). -/
theorem C9_overspend_policy_witness :
    "A" ∈ flagOverspend ["A"] (fun _ => -1000) 2 (fun _ => -650) :=
  (C9_overspend_policy.1 ["A"] (fun _ => -1000) 2 (fun _ => -650) "A").mpr
    ⟨by decide, by norm_num [Nat.max_def]⟩

end FamilyBudget
